import Mathlib

/-
Verification development for the MXNet Ruby binding shim `ext/mxnet/symbol.c`
(repository chimame/mxnet.rb).  The file shallowly embeds the marshalling
logic of the binding adapter: host Ruby values are modelled by the inductive
type `RVal`, fallible C functions that raise Ruby exceptions are modelled as
functions into `Except MXErr`, and the native engine entry point
`MXExecutorBindEX` is modelled as an oracle parameter of type
`BindCall → Except String Nat`, so that theorems can state when the oracle
is and is not consulted.
-/

set_option autoImplicit false

namespace MxnetRb

/-- Keys of host hashes as they occur in this binding: Ruby `Symbol` or
`String` keys.  Hashes keyed by other Ruby values never match the symbol
keys this file looks up, so such entries behave as absent and are not
modelled. -/
inductive RKey where
  | sym (s : String)
  | str (s : String)
  deriving DecidableEq, Repr

/-- Host Ruby values, restricted to the kinds `symbol.c` inspects:
nil, the internal `Qundef` sentinel used for absent keyword arguments,
symbols, strings, integers, NDArray objects (carrying their native handle),
arrays, hashes (association lists in enumeration order), Context objects
(carrying device-type and device-id codes) and Executor objects. -/
inductive RVal where
  | nil
  | undef
  | sym (s : String)
  | str (s : String)
  | int (n : Int)
  | ndarray (handle : Nat)
  | ary (xs : List RVal)
  | hash (pairs : List (RKey × RVal))
  | context (dev_type dev_id : Int)
  | exec (handle : Nat)

/-- Ruby exception classes raised by the C shim, with their messages. -/
inductive MXErr where
  | argError (msg : String)
  | typeError (msg : String)
  | rangeError (msg : String)
  | engineError (msg : String)
  deriving DecidableEq, Repr

/-- Ruby `CLASS_OF`, as rendered into error messages. -/
def class_of : RVal → String
  | RVal.nil => "NilClass"
  | RVal.undef => "undef"
  | RVal.sym _ => "Symbol"
  | RVal.str _ => "String"
  | RVal.int _ => "Integer"
  | RVal.ndarray _ => "MXNet::NDArray"
  | RVal.ary _ => "Array"
  | RVal.hash _ => "Hash"
  | RVal.context _ _ => "MXNet::Context"
  | RVal.exec _ => "MXNet::Executor"

/-- Ruby hash lookup (`rb_hash_lookup2` with an explicit default is
`(hashLookup pairs k).getD deflt`): first entry whose key equals `k`. -/
def hashLookup : List (RKey × RVal) → RKey → Option RVal
  | [], _ => none
  | p :: rest, key => if p.fst = key then some p.snd else hashLookup rest key

/-- View of a host value as a hash key; values that are neither symbols nor
strings never match the symbol keys used by this shim. -/
def rvalToKey : RVal → Option RKey
  | RVal.sym s => some (RKey.sym s)
  | RVal.str s => some (RKey.str s)
  | _ => none

/-- Hash lookup with an arbitrary host value as the key
(`rb_hash_lookup(h, item)` where `item` is user supplied). -/
def keyLookup (pairs : List (RKey × RVal)) (k : RVal) : Option RVal :=
  match rvalToKey k with
  | some key => hashLookup pairs key
  | none => none

/-- Ruby `NUM2UINT`: an Integer in the range accepted for `unsigned int`
(negative fixnums in `int` range wrap) converts, anything else raises. -/
def num2uint : RVal → Except MXErr Nat
  | RVal.int n =>
      if -(2 ^ 31 : Int) ≤ n ∧ n < 2 ^ 32 then
        Except.ok (n % (2 ^ 32 : Int)).toNat
      else
        Except.error (MXErr.rangeError "integer out of range for unsigned int")
  | v => Except.error (MXErr.typeError ("no implicit conversion of " ++ class_of v ++ " into Integer"))

/-- Modelled from the spec: `mxnet_get_handle` is defined outside this
translation unit (src/ holds only symbol.c); per the external-interface
contract it reads the native handle out of a wrapped host object such as an
NDArray or an Executor. -/
def mxnet_get_handle : RVal → Except MXErr Nat
  | RVal.ndarray h => Except.ok h
  | RVal.exec h => Except.ok h
  | v => Except.error (MXErr.typeError ("no native handle in " ++ class_of v))

/-- Modelled from the spec: `mxnet_context_get_device_type_id` is defined
outside this translation unit; the Device-Context boundary exposes a
device-type code. -/
def mxnet_context_get_device_type_id : RVal → Except MXErr Int
  | RVal.context t _ => Except.ok t
  | v => Except.error (MXErr.typeError ("not a context: " ++ class_of v))

/-- Modelled from the spec: `mxnet_context_get_device_id` is defined outside
this translation unit; the Device-Context boundary exposes a device-index
code. -/
def mxnet_context_get_device_id : RVal → Except MXErr Int
  | RVal.context _ d => Except.ok d
  | v => Except.error (MXErr.typeError ("not a context: " ++ class_of v))

/-- Modelled from the spec: `mxnet_grad_req_map` is defined outside this
translation unit.  The spec names the gradient-requirement enumeration
members null / write / add, with 0 the code of null; the codes of write and
add are the engine codes the map carries (1 and 3 here, as representative
nonzero codes). -/
def grad_req_map : List (RKey × RVal) :=
  [(RKey.sym "null", RVal.int 0), (RKey.sym "write", RVal.int 1), (RKey.sym "add", RVal.int 3)]

/-- Rendering of `grad_req_map` by Ruby string interpolation
(`%"PRIsVALUE` on the hash), as it appears in the invalid-enumeration
error message. -/
def grad_req_map_inspect : String :=
  "\x7b:null=>0, :write=>1, :add=>3\x7d"

/-- Sequential effectful map over a list, failing at the first error; this
is the shape of every marshalling loop in symbol.c (each iteration may
raise, aborting the loop). -/
def map_except {α β : Type} (f : α → Except MXErr β) : List α → Except MXErr (List β)
  | [] => Except.ok []
  | x :: rest =>
      match f x with
      | Except.error e => Except.error e
      | Except.ok y =>
          match map_except f rest with
          | Except.error e => Except.error e
          | Except.ok ys => Except.ok (y :: ys)

/-- Element check of the sequence branch of `get_ndarray_inputs`
(lines 176-182): a non-NDArray element raises TypeError, an NDArray yields
its native handle. -/
def check_ndarray_elem : RVal → Except MXErr Nat
  | RVal.ndarray h => Except.ok h
  | _ => Except.error (MXErr.typeError "Only accept Array of NDArrays or Hash of Symbol to NDArray")

/-- Hash branch of `get_ndarray_inputs` (lines 185-208): iterate the name
list in order; a present value must be an NDArray (else TypeError); an
absent name yields a NULL handle and a nil hole when `allow_missing`, and
raises ArgError naming the key otherwise. -/
def resolve_hash_inputs (arg_key : String) (pairs : List (RKey × RVal)) (allow_missing : Bool) :
    List String → Except MXErr (List RVal × List (Option Nat))
  | [] => Except.ok ([], [])
  | name :: rest =>
      match hashLookup pairs (RKey.sym name) with
      | some v =>
          match v with
          | RVal.ndarray h =>
              (match resolve_hash_inputs arg_key pairs allow_missing rest with
               | Except.error e => Except.error e
               | Except.ok (arrs, hs) => Except.ok (RVal.ndarray h :: arrs, some h :: hs))
          | _ => Except.error (MXErr.typeError "Only accept array of NDArrays or hash of Symbol to NDArray")
      | none =>
          if allow_missing then
            match resolve_hash_inputs arg_key pairs allow_missing rest with
            | Except.error e => Except.error e
            | Except.ok (arrs, hs) => Except.ok (RVal.nil :: arrs, (none : Option Nat) :: hs)
          else
            Except.error (MXErr.argError ("key `" ++ name ++ "` is missing in `" ++ arg_key ++ "`"))

/-- The helper `get_ndarray_inputs` of symbol.c (lines 161-215): resolve a
supplied binding (sequence, mapping, or neither) against a name list,
producing the host tensor sequence and the parallel native handle array. -/
def get_ndarray_inputs (arg_key : String) (args : RVal) (arg_names : List String)
    (allow_missing : Bool) : Except MXErr (List RVal × List (Option Nat)) :=
  match args with
  | RVal.ary xs =>
      if xs.length ≠ arg_names.length then
        Except.error (MXErr.argError ("Length of " ++ arg_key ++ " does not match the number of arguments"))
      else
        match map_except check_ndarray_elem xs with
        | Except.error e => Except.error e
        | Except.ok handles => Except.ok (xs, handles.map some)
  | RVal.hash pairs => resolve_hash_inputs arg_key pairs allow_missing arg_names
  | _ => Except.error (MXErr.typeError "Only accept Array of NDArrays or Hash of Symbol to NDArray")

/-- Gradient-requirement resolution of `symbol_bind` (lines 316-360):
absent defaults to the write symbol, a String is interned to a Symbol, a
Symbol is validated against `grad_req_map` and its code replicated, an
Array is converted code-by-code (one code per supplied position), a Hash is
looked up name-by-name with default code 0, and any other value raises
ArgError.  Returns the (possibly interned or defaulted) grad_req value that
the executor later records, together with the flat code array. -/
def resolve_grad_req (listed_arguments : List String) (grad_req : RVal) :
    Except MXErr (RVal × List Nat) :=
  let g1 := match grad_req with
    | RVal.undef => RVal.sym "write"
    | v => v
  let g2 := match g1 with
    | RVal.str s => RVal.sym s
    | v => v
  match g2 with
  | RVal.sym s =>
      match hashLookup grad_req_map (RKey.sym s) with
      | none => Except.error (MXErr.argError ("grad_req must be in " ++ grad_req_map_inspect))
      | some _ =>
          match num2uint ((hashLookup grad_req_map (RKey.sym s)).getD RVal.nil) with
          | Except.error e => Except.error e
          | Except.ok req => Except.ok (RVal.sym s, List.replicate listed_arguments.length req)
  | RVal.ary items =>
      (match map_except (fun item => num2uint ((keyLookup grad_req_map item).getD RVal.nil)) items with
       | Except.error e => Except.error e
       | Except.ok reqs => Except.ok (RVal.ary items, reqs))
  | RVal.hash pairs =>
      (match map_except
          (fun name => num2uint ((hashLookup pairs (RKey.sym name)).getD (RVal.int 0)))
          listed_arguments with
       | Except.error e => Except.error e
       | Except.ok reqs => Except.ok (RVal.hash pairs, reqs))
  | v => Except.error (MXErr.argError
      ("Invalid type of grad_req (" ++ class_of v ++ " for Symbol, Array, or Hash)"))

/-- Device-group resolution of `symbol_bind` (lines 362-388): iterate the
hash in enumeration order, converting each key to a C string and each value
to its device-type and device-index codes, building three parallel
arrays. -/
def resolve_group2ctx : List (RKey × RVal) → Except MXErr (List String × List Int × List Int)
  | [] => Except.ok ([], [], [])
  | (k, v) :: rest =>
      let key := match k with
        | RKey.sym s => s
        | RKey.str s => s
      match mxnet_context_get_device_type_id v with
      | Except.error e => Except.error e
      | Except.ok dt =>
          match mxnet_context_get_device_id v with
          | Except.error e => Except.error e
          | Except.ok di =>
              match resolve_group2ctx rest with
              | Except.error e => Except.error e
              | Except.ok (keys, dts, dis) => Except.ok (key :: keys, dt :: dts, di :: dis)

/-- A symbolic-graph object as the shim sees it: its native handle, and the
argument / auxiliary-state name lists the native list calls report for it. -/
structure MXSym where
  handle : Nat
  arguments : List String
  aux_states : List String
  deriving DecidableEq, Repr

/-- The full argument record passed to the native entry point
`MXExecutorBindEX` (lines 401-416). -/
structure BindCall where
  symbol_handle : Nat
  dev_type : Int
  dev_id : Int
  num_ctx_map_keys : Nat
  ctx_map_keys : List String
  ctx_map_dev_types : List Int
  ctx_map_dev_ids : List Int
  num_args : Nat
  args_handle : List (Option Nat)
  args_grad_handle : List (Option Nat)
  reqs_array : List Nat
  num_aux : Nat
  aux_args_handle : List (Option Nat)
  shared_exec_handle : Option Nat
  deriving DecidableEq, Repr

/-- Everything `symbol_bind` resolves before the native call: the argument
record for the engine, plus the host values later attached to the executor
object. -/
structure ResolvedBind where
  call : BindCall
  arg_arrays : RVal
  grad_arrays : RVal
  aux_arrays : RVal
  grad_req_v : RVal
  group2ctx_v : RVal
  ctx_v : RVal

/-- The host Execution object (`mxnet_executor_new` plus the three setter
calls, lines 418-421). -/
structure Executor where
  exec_handle : Nat
  symbol : MXSym
  ctx : RVal
  grad_req : RVal
  group2ctx : RVal
  arg_arrays : RVal
  grad_arrays : RVal
  aux_arrays : RVal

/-- The resolution phase of `symbol_bind` (lines 283-398): context type
check, input resolution for args, args_grad and aux_states,
gradient-requirement resolution, device-group resolution and
shared-executor resolution, in the order of the C code; the first failing
step aborts by raising. -/
def symbol_bind_resolve (sym : MXSym)
    (ctx args args_grad grad_req aux_states group2ctx shared_exec : RVal) :
    Except MXErr ResolvedBind :=
  match ctx with
  | RVal.context dev_type dev_id =>
    (match get_ndarray_inputs "args" args sym.arguments false with
     | Except.error e => Except.error e
     | Except.ok (arg_arrays, args_handle) =>
       let args_grad1 := match args_grad with
         | RVal.undef => RVal.nil
         | v => v
       match (match args_grad1 with
              | RVal.nil =>
                  Except.ok (RVal.nil, List.replicate arg_arrays.length (none : Option Nat))
              | v =>
                  match get_ndarray_inputs "args_grad" v sym.arguments true with
                  | Except.error e => Except.error e
                  | Except.ok (ga, gh) => Except.ok (RVal.ary ga, gh)) with
       | Except.error e => Except.error e
       | Except.ok (grad_arrays, args_grad_handle) =>
         let aux_states1 := match aux_states with
           | RVal.undef => RVal.ary []
           | RVal.nil => RVal.ary []
           | v => v
         match get_ndarray_inputs "aux_states" aux_states1 sym.aux_states false with
         | Except.error e => Except.error e
         | Except.ok (aux_arrays, aux_args_handle) =>
           match resolve_grad_req sym.arguments grad_req with
           | Except.error e => Except.error e
           | Except.ok (grad_req_v, reqs_array) =>
             let group2ctx1 := match group2ctx with
               | RVal.undef => RVal.nil
               | v => v
             match (match group2ctx1 with
                    | RVal.nil => Except.ok (([] : List String), ([] : List Int), ([] : List Int))
                    | RVal.hash pairs => resolve_group2ctx pairs
                    | v => Except.error (MXErr.typeError
                        ("wrong argument type " ++ class_of v ++ " (expected Hash)"))) with
             | Except.error e => Except.error e
             | Except.ok (ctx_map_keys, ctx_map_dev_types, ctx_map_dev_ids) =>
               let shared_exec1 := match shared_exec with
                 | RVal.undef => RVal.nil
                 | v => v
               match (match shared_exec1 with
                      | RVal.nil => Except.ok (none : Option Nat)
                      | v =>
                          match mxnet_get_handle v with
                          | Except.error e => Except.error e
                          | Except.ok h => Except.ok (some h)) with
               | Except.error e => Except.error e
               | Except.ok shared_exec_handle =>
                 Except.ok {
                   call := {
                     symbol_handle := sym.handle
                     dev_type := dev_type
                     dev_id := dev_id
                     num_ctx_map_keys := ctx_map_keys.length
                     ctx_map_keys := ctx_map_keys
                     ctx_map_dev_types := ctx_map_dev_types
                     ctx_map_dev_ids := ctx_map_dev_ids
                     num_args := arg_arrays.length
                     args_handle := args_handle
                     args_grad_handle := args_grad_handle
                     reqs_array := reqs_array
                     num_aux := aux_arrays.length
                     aux_args_handle := aux_args_handle
                     shared_exec_handle := shared_exec_handle }
                   arg_arrays := RVal.ary arg_arrays
                   grad_arrays := grad_arrays
                   aux_arrays := RVal.ary aux_arrays
                   grad_req_v := grad_req_v
                   group2ctx_v := group2ctx1
                   ctx_v := ctx })
  | _ => Except.error (MXErr.typeError "Context type error")

/-- The full `symbol_bind` (lines 241-432): resolve everything, invoke the
native entry point through the `engine` oracle, and on success construct
the host Execution object recording the resolved values; an engine failure
propagates as an engine error carrying the reported message. -/
def symbol_bind (engine : BindCall → Except String Nat) (sym : MXSym)
    (ctx args args_grad grad_req aux_states group2ctx shared_exec : RVal) :
    Except MXErr Executor :=
  match symbol_bind_resolve sym ctx args args_grad grad_req aux_states group2ctx shared_exec with
  | Except.error e => Except.error e
  | Except.ok r =>
      match engine r.call with
      | Except.error msg => Except.error (MXErr.engineError msg)
      | Except.ok h =>
          Except.ok {
            exec_handle := h
            symbol := sym
            ctx := r.ctx_v
            grad_req := r.grad_req_v
            group2ctx := r.group2ctx_v
            arg_arrays := r.arg_arrays
            grad_arrays := r.grad_arrays
            aux_arrays := r.aux_arrays }

/-- The tensor recorded for a name when resolving a mapping: the mapped
value when present, the nil hole otherwise. -/
def lookupTensor (pairs : List (RKey × RVal)) (n : String) : RVal :=
  (hashLookup pairs (RKey.sym n)).getD RVal.nil

/-- The native handle recorded for a resolved tensor: the NDArray handle,
or NULL for a hole. -/
def ndarray_handle_of : RVal → Option Nat
  | RVal.ndarray h => some h
  | _ => none

/-- The code the hash form of gradient-requirement resolution computes for
one argument name: convert the mapped value, defaulting absent names to
integer 0. -/
def hash_req_code (pairs : List (RKey × RVal)) (n : String) : Nat :=
  match num2uint ((hashLookup pairs (RKey.sym n)).getD (RVal.int 0)) with
  | Except.ok c => c
  | Except.error _ => 0

/-- A successful `map_except` yields one output per input. -/
theorem map_except_length {α β : Type} (f : α → Except MXErr β) (xs : List α) (l : List β)
    (h : map_except f xs = Except.ok l) : l.length = xs.length := by
  induction xs generalizing l with
  | nil =>
      simp [map_except] at h
      simp [← h]
  | cons x rest ih =>
      cases hfx : f x with
      | error e => simp [map_except, hfx] at h
      | ok y =>
          cases hrest : map_except f rest with
          | error e => simp [map_except, hfx, hrest] at h
          | ok ys =>
              simp [map_except, hfx, hrest] at h
              simp [← h, ih ys hrest]

/-- When every element converts, `map_except` succeeds with one output per
input. -/
theorem map_except_total {α β : Type} (f : α → Except MXErr β) (xs : List α)
    (h : ∀ x ∈ xs, ∃ y, f x = Except.ok y) :
    ∃ l, map_except f xs = Except.ok l ∧ l.length = xs.length := by
  induction xs with
  | nil => exact ⟨[], rfl, rfl⟩
  | cons x rest ih =>
      obtain ⟨y, hy⟩ := h x (by simp)
      obtain ⟨l, hl, hlen⟩ := ih (fun z hz => h z (by simp [hz]))
      exact ⟨y :: l, by simp [map_except, hy, hl], by simp [hlen]⟩

/-- When every element converts to a specified value, `map_except` computes
the pointwise map. -/
theorem map_except_map {α β : Type} (f : α → Except MXErr β) (g : α → β) (xs : List α)
    (h : ∀ x ∈ xs, f x = Except.ok (g x)) :
    map_except f xs = Except.ok (xs.map g) := by
  induction xs with
  | nil => rfl
  | cons x rest ih =>
      simp [map_except, h x (by simp), ih (fun z hz => h z (by simp [hz]))]

/-- A sequence made of NDArrays converts elementwise into its handles. -/
theorem map_except_check_nd (xs : List RVal)
    (h : ∀ v ∈ xs, ∃ hh, v = RVal.ndarray hh) :
    ∃ l, map_except check_ndarray_elem xs = Except.ok l ∧
      l.map some = xs.map ndarray_handle_of := by
  induction xs with
  | nil => exact ⟨[], rfl, rfl⟩
  | cons v rest ih =>
      obtain ⟨hh, rfl⟩ := h v (by simp)
      obtain ⟨l, hl, hmap⟩ := ih (fun z hz => h z (by simp [hz]))
      exact ⟨hh :: l, by simp [map_except, check_ndarray_elem, hl],
        by simp [hmap, ndarray_handle_of]⟩

/-- A sequence containing a non-NDArray element fails elementwise conversion
with the TypeError of line 179. -/
theorem map_except_check_nd_err (xs : List RVal)
    (h : ∃ bad ∈ xs, ∀ hh, bad ≠ RVal.ndarray hh) :
    map_except check_ndarray_elem xs
      = Except.error (MXErr.typeError "Only accept Array of NDArrays or Hash of Symbol to NDArray") := by
  induction xs with
  | nil =>
      obtain ⟨bad, hb, _⟩ := h
      simp at hb
  | cons v rest ih =>
      obtain ⟨bad, hb, hnd⟩ := h
      by_cases hv : ∃ hh, v = RVal.ndarray hh
      · obtain ⟨hh, rfl⟩ := hv
        have hbad : bad ∈ rest := by
          rcases List.mem_cons.mp hb with rfl | h1
          · exact absurd rfl (hnd hh)
          · exact h1
        simp [map_except, check_ndarray_elem, ih ⟨bad, hbad, hnd⟩]
      · have hcv : check_ndarray_elem v
            = Except.error (MXErr.typeError "Only accept Array of NDArrays or Hash of Symbol to NDArray") := by
          cases v
          case ndarray hh => exact absurd ⟨hh, rfl⟩ hv
          all_goals rfl
        simp [map_except, hcv]

/-- When every listed name is mapped to an NDArray or is tolerably absent,
the hash branch resolves to the name-ordered tensor and handle maps. -/
theorem resolve_hash_inputs_maps (arg_key : String) (pairs : List (RKey × RVal)) (am : Bool)
    (names : List String)
    (h : ∀ n ∈ names, (∃ hh, hashLookup pairs (RKey.sym n) = some (RVal.ndarray hh)) ∨
         (hashLookup pairs (RKey.sym n) = none ∧ am = true)) :
    resolve_hash_inputs arg_key pairs am names
      = Except.ok (names.map (lookupTensor pairs),
                   names.map (fun n => ndarray_handle_of (lookupTensor pairs n))) := by
  induction names with
  | nil => rfl
  | cons name rest ih =>
      have hrest := ih (fun n hn => h n (by simp [hn]))
      rcases h name (by simp) with ⟨hh, hl⟩ | ⟨hl, ham⟩
      · simp [resolve_hash_inputs, hl, hrest, lookupTensor, ndarray_handle_of]
      · subst ham
        simp [resolve_hash_inputs, hl, hrest, lookupTensor, ndarray_handle_of]

/-- When values are NDArrays where present but some listed name is absent
and absence is disallowed, the hash branch fails with the missing-key
ArgError of line 205, naming an absent key. -/
theorem resolve_hash_inputs_missing (arg_key : String) (pairs : List (RKey × RVal))
    (names : List String)
    (hvals : ∀ n ∈ names, hashLookup pairs (RKey.sym n) = none ∨
             ∃ hh, hashLookup pairs (RKey.sym n) = some (RVal.ndarray hh))
    (hmiss : ∃ n ∈ names, hashLookup pairs (RKey.sym n) = none) :
    ∃ n ∈ names, hashLookup pairs (RKey.sym n) = none ∧
      resolve_hash_inputs arg_key pairs false names
        = Except.error (MXErr.argError ("key `" ++ n ++ "` is missing in `" ++ arg_key ++ "`")) := by
  induction names with
  | nil =>
      obtain ⟨n, hn, _⟩ := hmiss
      simp at hn
  | cons name rest ih =>
      cases hl : hashLookup pairs (RKey.sym name) with
      | none =>
          exact ⟨name, by simp, hl, by simp [resolve_hash_inputs, hl]⟩
      | some v =>
          rcases hvals name (by simp) with h0 | ⟨hh, hsome⟩
          · rw [hl] at h0
            cases h0
          · rw [hl] at hsome
            injection hsome with hv
            subst hv
            have hmiss2 : ∃ n ∈ rest, hashLookup pairs (RKey.sym n) = none := by
              obtain ⟨n, hn, hno⟩ := hmiss
              rcases List.mem_cons.mp hn with rfl | hn2
              · rw [hl] at hno
                cases hno
              · exact ⟨n, hn2, hno⟩
            obtain ⟨n, hn, hno, heq⟩ := ih (fun m hm => hvals m (by simp [hm])) hmiss2
            exact ⟨n, by simp [hn], hno, by simp [resolve_hash_inputs, hl, heq]⟩

/-- When no disallowed absence occurs first but some listed name maps to a
non-NDArray, the hash branch fails with the TypeError of line 195. -/
theorem resolve_hash_inputs_badval (arg_key : String) (pairs : List (RKey × RVal)) (am : Bool)
    (names : List String)
    (hreach : ∀ n ∈ names, hashLookup pairs (RKey.sym n) ≠ none ∨ am = true)
    (hbad : ∃ n ∈ names, ∃ v, hashLookup pairs (RKey.sym n) = some v ∧ ∀ hh, v ≠ RVal.ndarray hh) :
    resolve_hash_inputs arg_key pairs am names
      = Except.error (MXErr.typeError "Only accept array of NDArrays or hash of Symbol to NDArray") := by
  induction names with
  | nil =>
      obtain ⟨n, hn, _⟩ := hbad
      simp at hn
  | cons name rest ih =>
      cases hl : hashLookup pairs (RKey.sym name) with
      | none =>
          have ham : am = true := by
            rcases hreach name (by simp) with h1 | h1
            · exact absurd hl h1
            · exact h1
          subst ham
          have hbad2 : ∃ n ∈ rest, ∃ v, hashLookup pairs (RKey.sym n) = some v ∧
              ∀ hh, v ≠ RVal.ndarray hh := by
            obtain ⟨n, hn, v, hv, hnd⟩ := hbad
            rcases List.mem_cons.mp hn with rfl | hn2
            · rw [hl] at hv
              cases hv
            · exact ⟨n, hn2, v, hv, hnd⟩
          simp [resolve_hash_inputs, hl,
            ih (fun m hm => hreach m (by simp [hm])) hbad2]
      | some v =>
          by_cases hv : ∃ hh, v = RVal.ndarray hh
          · obtain ⟨hh, rfl⟩ := hv
            have hbad2 : ∃ n ∈ rest, ∃ w, hashLookup pairs (RKey.sym n) = some w ∧
                ∀ hh2, w ≠ RVal.ndarray hh2 := by
              obtain ⟨n, hn, w, hw, hnd⟩ := hbad
              rcases List.mem_cons.mp hn with rfl | hn2
              · rw [hl] at hw
                injection hw with hw1
                subst hw1
                exact absurd rfl (hnd hh)
              · exact ⟨n, hn2, w, hw, hnd⟩
            simp [resolve_hash_inputs, hl,
              ih (fun m hm => hreach m (by simp [hm])) hbad2]
          · have hnd : ∀ hh, v ≠ RVal.ndarray hh := fun hh hh2 => hv ⟨hh, hh2⟩
            have hcv : resolve_hash_inputs arg_key pairs am (name :: rest)
                = Except.error (MXErr.typeError "Only accept array of NDArrays or hash of Symbol to NDArray") := by
              cases v
              case ndarray hh => exact absurd rfl (hnd hh)
              all_goals simp [resolve_hash_inputs, hl]
            exact hcv

/-- The hash branch resolves exactly one tensor per listed name. -/
theorem resolve_hash_inputs_length (arg_key : String) (pairs : List (RKey × RVal)) (am : Bool)
    (names : List String) (a : List RVal) (hs : List (Option Nat))
    (h : resolve_hash_inputs arg_key pairs am names = Except.ok (a, hs)) :
    a.length = names.length := by
  induction names generalizing a hs with
  | nil =>
      simp [resolve_hash_inputs] at h
      simp [← h.1]
  | cons name rest ih =>
      cases hl : hashLookup pairs (RKey.sym name) with
      | some v =>
          cases hrec : resolve_hash_inputs arg_key pairs am rest with
          | error e =>
              cases v <;> simp [resolve_hash_inputs, hl, hrec] at h
          | ok pr =>
              obtain ⟨arrs, hss⟩ := pr
              cases v <;> simp [resolve_hash_inputs, hl, hrec] at h
              case ndarray hh =>
                obtain ⟨h1, h2⟩ := h
                simp [← h1, ih arrs hss hrec]
      | none =>
          cases ham : am with
          | false => simp [resolve_hash_inputs, hl, ham] at h
          | true =>
              rw [ham] at ih
              cases hrec : resolve_hash_inputs arg_key pairs true rest with
              | error e => simp [resolve_hash_inputs, hl, ham, hrec] at h
              | ok pr =>
                  obtain ⟨arrs, hss⟩ := pr
                  simp [resolve_hash_inputs, hl, ham, hrec] at h
                  obtain ⟨h1, h2⟩ := h
                  simp [← h1, ih arrs hss hrec]

/-- Every successful input resolution returns exactly one tensor per listed
name. -/
theorem get_ndarray_inputs_length (arg_key : String) (v : RVal) (names : List String) (am : Bool)
    (a : List RVal) (hs : List (Option Nat))
    (h : get_ndarray_inputs arg_key v names am = Except.ok (a, hs)) :
    a.length = names.length := by
  cases v
  case ary xs =>
    rw [get_ndarray_inputs] at h
    by_cases hlen : xs.length = names.length
    · simp [hlen] at h
      cases hm : map_except check_ndarray_elem xs with
      | error e => simp [hm] at h
      | ok l =>
          simp [hm] at h
          simp [← h.1, hlen]
    · simp [hlen] at h
  case hash pairs =>
    exact resolve_hash_inputs_length arg_key pairs am names a hs h
  all_goals simp [get_ndarray_inputs] at h

/-- A successful sequence-form gradient-requirement resolution keeps the
supplied sequence and yields one code per supplied position. -/
theorem resolve_grad_req_ary (names : List String) (items : List RVal) (v : RVal)
    (reqs : List Nat)
    (h : resolve_grad_req names (RVal.ary items) = Except.ok (v, reqs)) :
    v = RVal.ary items ∧ reqs.length = items.length := by
  rw [resolve_grad_req] at h
  cases hm : map_except (fun item => num2uint ((keyLookup grad_req_map item).getD RVal.nil)) items with
  | error e => simp [hm] at h
  | ok l =>
      simp [hm] at h
      obtain ⟨h1, h2⟩ := h
      exact ⟨h1.symm, by simp [← h2, map_except_length _ _ _ hm]⟩

/-- Claim C1: if any resolution step of bind fails (device-context type
validation, input resolution for args, args_grad or aux_states,
gradient-requirement resolution, or device-group resolution), bind raises
that error for every possible engine, so the native bind entry point is
never consulted and no Execution object is constructed; bind either fully
succeeds with an Execution object or fully fails with the resolution
error. -/
theorem bind_aborts_before_native_on_resolution_failure (sym : MXSym)
    (ctx args args_grad grad_req aux_states group2ctx shared_exec : RVal) (e : MXErr)
    (h : symbol_bind_resolve sym ctx args args_grad grad_req aux_states group2ctx shared_exec
      = Except.error e) :
    ∀ engine : BindCall → Except String Nat,
      symbol_bind engine sym ctx args args_grad grad_req aux_states group2ctx shared_exec
        = Except.error e := by
  intro engine
  rw [symbol_bind, h]

/-- Witness for C1 at a concrete failing input: a non-Context first
argument makes bind fail with the context TypeError, with the engine
untouched. -/
theorem bind_aborts_before_native_on_resolution_failure_witness :
    symbol_bind (fun _ => Except.ok 0) ⟨1, ["a"], []⟩ (RVal.int 7)
      (RVal.ary [RVal.ndarray 5]) RVal.undef RVal.undef RVal.undef RVal.undef RVal.undef
      = Except.error (MXErr.typeError "Context type error") :=
  bind_aborts_before_native_on_resolution_failure ⟨1, ["a"], []⟩ (RVal.int 7)
    (RVal.ary [RVal.ndarray 5]) RVal.undef RVal.undef RVal.undef RVal.undef RVal.undef
    (MXErr.typeError "Context type error") rfl (fun _ => Except.ok 0)

/-- Claim C2: for a name list of length N and an input supplied as an
ordered sequence of tensors, input resolution succeeds exactly when the
sequence length equals N, returning the tensors in the supplied order with
a parallel handle array; a differing length fails with the argument-count
ArgError naming the role. -/
theorem input_resolution_sequence_form (arg_key : String) (names : List String)
    (xs : List RVal) (am : Bool)
    (hxs : ∀ v ∈ xs, ∃ hh, v = RVal.ndarray hh) :
    (xs.length = names.length →
      get_ndarray_inputs arg_key (RVal.ary xs) names am
        = Except.ok (xs, xs.map ndarray_handle_of)) ∧
    (xs.length ≠ names.length →
      get_ndarray_inputs arg_key (RVal.ary xs) names am
        = Except.error (MXErr.argError
            ("Length of " ++ arg_key ++ " does not match the number of arguments"))) := by
  constructor
  · intro hlen
    obtain ⟨l, hl, hmap⟩ := map_except_check_nd xs hxs
    simp [get_ndarray_inputs, hlen, hl, hmap]
  · intro hlen
    simp [get_ndarray_inputs, hlen]

/-- Witness for C2 at a concrete input: two tensors resolved against two
names succeed in order; one tensor against two names raises the args
length ArgError. -/
theorem input_resolution_sequence_form_witness :
    get_ndarray_inputs "args" (RVal.ary [RVal.ndarray 5, RVal.ndarray 6]) ["a", "b"] false
      = Except.ok ([RVal.ndarray 5, RVal.ndarray 6], [some 5, some 6]) ∧
    get_ndarray_inputs "args" (RVal.ary [RVal.ndarray 5]) ["a", "b"] false
      = Except.error (MXErr.argError "Length of args does not match the number of arguments") := by
  constructor
  · have hx : ∀ v ∈ [RVal.ndarray 5, RVal.ndarray 6], ∃ hh, v = RVal.ndarray hh := by
      intro v hv
      simp only [List.mem_cons, List.not_mem_nil, or_false] at hv
      rcases hv with rfl | rfl
      · exact ⟨5, rfl⟩
      · exact ⟨6, rfl⟩
    have h := (input_resolution_sequence_form "args" ["a", "b"]
        [RVal.ndarray 5, RVal.ndarray 6] false hx).1 rfl
    exact h.trans rfl
  · have hy : ∀ v ∈ [RVal.ndarray 5], ∃ hh, v = RVal.ndarray hh := by
      intro v hv
      simp only [List.mem_cons, List.not_mem_nil, or_false] at hv
      subst hv
      exact ⟨5, rfl⟩
    exact (input_resolution_sequence_form "args" ["a", "b"]
        [RVal.ndarray 5] false hy).2 (by simp)

/-- Claim C5: gradient-requirement resolution with grad_req absent yields
one write code per argument; a recognized scalar label replicates its code
over all arguments; an unrecognized scalar label raises the ArgError
listing the valid members. -/
theorem grad_req_scalar_resolution (names : List String) :
    (hashLookup grad_req_map (RKey.sym "write") = some (RVal.int 1) ∧
     resolve_grad_req names RVal.undef
       = Except.ok (RVal.sym "write", List.replicate names.length 1)) ∧
    (∀ (s : String) (code : RVal) (c : Nat),
      hashLookup grad_req_map (RKey.sym s) = some code →
      num2uint code = Except.ok c →
      resolve_grad_req names (RVal.sym s)
        = Except.ok (RVal.sym s, List.replicate names.length c)) ∧
    (∀ s : String, hashLookup grad_req_map (RKey.sym s) = none →
      resolve_grad_req names (RVal.sym s)
        = Except.error (MXErr.argError ("grad_req must be in " ++ grad_req_map_inspect))) := by
  have hbody : ∀ s : String, resolve_grad_req names (RVal.sym s)
      = match hashLookup grad_req_map (RKey.sym s) with
        | none => Except.error (MXErr.argError ("grad_req must be in " ++ grad_req_map_inspect))
        | some _ =>
            match num2uint ((hashLookup grad_req_map (RKey.sym s)).getD RVal.nil) with
            | Except.error e => Except.error e
            | Except.ok req => Except.ok (RVal.sym s, List.replicate names.length req) := by
    intro s
    rfl
  refine ⟨⟨rfl, rfl⟩, ?_, ?_⟩
  · intro s code c hc hconv
    rw [hbody s, hc]
    simp only [Option.getD_some, hconv]
  · intro s h0
    rw [hbody s, h0]

/-- Witness for C5 at concrete inputs: the recognized label add replicates
code 3 over two arguments, and the unrecognized label bogus raises the
enumeration ArgError. -/
theorem grad_req_scalar_resolution_witness :
    resolve_grad_req ["a", "b"] (RVal.sym "add") = Except.ok (RVal.sym "add", [3, 3]) ∧
    resolve_grad_req ["a", "b"] (RVal.sym "bogus")
      = Except.error (MXErr.argError ("grad_req must be in " ++ grad_req_map_inspect)) := by
  have h := grad_req_scalar_resolution ["a", "b"]
  refine ⟨?_, h.2.2 "bogus" rfl⟩
  have h3 := h.2.1 "add" (RVal.int 3) 3 rfl rfl
  exact h3.trans rfl

/-- Claim C6: hash-form gradient-requirement resolution looks up every
argument name and yields code 0 for every name absent from the mapping,
rather than raising. -/
theorem grad_req_hash_resolution (names : List String) (pairs : List (RKey × RVal))
    (hconv : ∀ n ∈ names,
      ∃ c, num2uint ((hashLookup pairs (RKey.sym n)).getD (RVal.int 0)) = Except.ok c) :
    resolve_grad_req names (RVal.hash pairs)
      = Except.ok (RVal.hash pairs, names.map (hash_req_code pairs)) ∧
    ∀ n : String, hashLookup pairs (RKey.sym n) = none → hash_req_code pairs n = 0 := by
  have hzero : ∀ n : String, hashLookup pairs (RKey.sym n) = none → hash_req_code pairs n = 0 := by
    intro n h0
    have : num2uint (RVal.int 0) = Except.ok 0 := by
      simp [num2uint]
    simp [hash_req_code, h0, this]
  constructor
  · have hmap : map_except
        (fun name => num2uint ((hashLookup pairs (RKey.sym name)).getD (RVal.int 0))) names
        = Except.ok (names.map (hash_req_code pairs)) := by
      refine map_except_map _ _ names (fun n hn => ?_)
      obtain ⟨c, hc⟩ := hconv n hn
      simp [hash_req_code, hc]
    simp [resolve_grad_req, hmap]
  · exact hzero

/-- Witness for C6 at a concrete input: with arguments a and b and a
mapping carrying only a, resolution succeeds with code 3 for a and the
lenient default 0 for the absent b. -/
theorem grad_req_hash_resolution_witness :
    resolve_grad_req ["a", "b"] (RVal.hash [(RKey.sym "a", RVal.int 3)])
      = Except.ok (RVal.hash [(RKey.sym "a", RVal.int 3)], [3, 0]) ∧
    hash_req_code [(RKey.sym "a", RVal.int 3)] "b" = 0 := by
  have hc : ∀ n ∈ ["a", "b"],
      ∃ c, num2uint ((hashLookup [(RKey.sym "a", RVal.int 3)] (RKey.sym n)).getD (RVal.int 0))
        = Except.ok c := by
    intro n hn
    simp only [List.mem_cons, List.not_mem_nil, or_false] at hn
    rcases hn with rfl | rfl
    · exact ⟨3, rfl⟩
    · exact ⟨0, rfl⟩
  have h := grad_req_hash_resolution ["a", "b"] [(RKey.sym "a", RVal.int 3)] hc
  exact ⟨h.1.trans rfl, h.2 "b" rfl⟩

/-- Claim C10: a scalar grad_req supplied as a host String is interned to
a Symbol before dispatch, so bind behaves identically on the String form
and the Symbol form of the same label text, for every engine and every
other input. -/
theorem bind_string_grad_req_same_as_symbol (engine : BindCall → Except String Nat)
    (sym : MXSym) (ctx args args_grad aux_states group2ctx shared_exec : RVal) (s : String) :
    symbol_bind engine sym ctx args args_grad (RVal.str s) aux_states group2ctx shared_exec
      = symbol_bind engine sym ctx args args_grad (RVal.sym s) aux_states group2ctx shared_exec := rfl

/-- Claim C3: for a mapping that contains a tensor for every listed name,
input resolution returns the tensors ordered by the name list, and the
result depends only on the key-to-value contents of the mapping, not on
its enumeration order. -/
theorem input_resolution_mapping_form (arg_key : String) (names : List String)
    (p1 p2 : List (RKey × RVal)) (am : Bool)
    (hsame : ∀ k, hashLookup p1 k = hashLookup p2 k)
    (hall : ∀ n ∈ names, ∃ hh, hashLookup p1 (RKey.sym n) = some (RVal.ndarray hh)) :
    get_ndarray_inputs arg_key (RVal.hash p1) names am
      = Except.ok (names.map (lookupTensor p1),
                   names.map (fun n => ndarray_handle_of (lookupTensor p1 n))) ∧
    get_ndarray_inputs arg_key (RVal.hash p1) names am
      = get_ndarray_inputs arg_key (RVal.hash p2) names am := by
  have h1 : get_ndarray_inputs arg_key (RVal.hash p1) names am
      = Except.ok (names.map (lookupTensor p1),
                   names.map (fun n => ndarray_handle_of (lookupTensor p1 n))) :=
    resolve_hash_inputs_maps arg_key p1 am names (fun n hn => Or.inl (hall n hn))
  have hall2 : ∀ n ∈ names, ∃ hh, hashLookup p2 (RKey.sym n) = some (RVal.ndarray hh) := by
    intro n hn
    obtain ⟨hh, hl⟩ := hall n hn
    exact ⟨hh, (hsame (RKey.sym n)) ▸ hl⟩
  have h2 : get_ndarray_inputs arg_key (RVal.hash p2) names am
      = Except.ok (names.map (lookupTensor p2),
                   names.map (fun n => ndarray_handle_of (lookupTensor p2 n))) :=
    resolve_hash_inputs_maps arg_key p2 am names (fun n hn => Or.inl (hall2 n hn))
  have hfun : lookupTensor p1 = lookupTensor p2 := by
    funext n
    simp [lookupTensor, hsame (RKey.sym n)]
  refine ⟨h1, ?_⟩
  rw [h1, h2, hfun]

/-- Witness for C3 at a concrete input: the same two-entry mapping listed
in two different enumeration orders resolves to the same name-ordered
result. -/
theorem input_resolution_mapping_form_witness :
    get_ndarray_inputs "args"
        (RVal.hash [(RKey.sym "a", RVal.ndarray 1), (RKey.sym "b", RVal.ndarray 2)])
        ["a", "b"] false
      = Except.ok ([RVal.ndarray 1, RVal.ndarray 2], [some 1, some 2]) ∧
    get_ndarray_inputs "args"
        (RVal.hash [(RKey.sym "a", RVal.ndarray 1), (RKey.sym "b", RVal.ndarray 2)])
        ["a", "b"] false
      = get_ndarray_inputs "args"
          (RVal.hash [(RKey.sym "b", RVal.ndarray 2), (RKey.sym "a", RVal.ndarray 1)])
          ["a", "b"] false := by
  have hsame : ∀ k,
      hashLookup [(RKey.sym "a", RVal.ndarray 1), (RKey.sym "b", RVal.ndarray 2)] k
        = hashLookup [(RKey.sym "b", RVal.ndarray 2), (RKey.sym "a", RVal.ndarray 1)] k := by
    intro k
    by_cases h1 : RKey.sym "a" = k
    · subst h1
      simp [hashLookup]
    · by_cases h2 : RKey.sym "b" = k
      · subst h2
        simp [hashLookup]
      · simp [hashLookup, h1, h2]
  have hall : ∀ n ∈ ["a", "b"],
      ∃ hh, hashLookup [(RKey.sym "a", RVal.ndarray 1), (RKey.sym "b", RVal.ndarray 2)]
        (RKey.sym n) = some (RVal.ndarray hh) := by
    intro n hn
    simp only [List.mem_cons, List.not_mem_nil, or_false] at hn
    rcases hn with rfl | rfl
    · exact ⟨1, rfl⟩
    · exact ⟨2, rfl⟩
  have h := input_resolution_mapping_form "args" ["a", "b"]
    [(RKey.sym "a", RVal.ndarray 1), (RKey.sym "b", RVal.ndarray 2)]
    [(RKey.sym "b", RVal.ndarray 2), (RKey.sym "a", RVal.ndarray 1)] false hsame hall
  exact ⟨h.1.trans rfl, h.2⟩

/-- Claim C4: for a mapping of tensors with some listed name absent,
resolution with missing disallowed fails with the missing-key ArgError
naming an absent key, and with missing allowed it succeeds with a nil hole
and a NULL placeholder handle at exactly the absent positions. -/
theorem input_resolution_missing_key (arg_key : String) (names : List String)
    (pairs : List (RKey × RVal))
    (hvals : ∀ n ∈ names, hashLookup pairs (RKey.sym n) = none ∨
             ∃ hh, hashLookup pairs (RKey.sym n) = some (RVal.ndarray hh))
    (hmiss : ∃ n ∈ names, hashLookup pairs (RKey.sym n) = none) :
    (∃ n ∈ names, hashLookup pairs (RKey.sym n) = none ∧
      get_ndarray_inputs arg_key (RVal.hash pairs) names false
        = Except.error (MXErr.argError ("key `" ++ n ++ "` is missing in `" ++ arg_key ++ "`"))) ∧
    (get_ndarray_inputs arg_key (RVal.hash pairs) names true
        = Except.ok (names.map (lookupTensor pairs),
                     names.map (fun n => ndarray_handle_of (lookupTensor pairs n))) ∧
     ∀ n : String, hashLookup pairs (RKey.sym n) = none →
       lookupTensor pairs n = RVal.nil ∧ ndarray_handle_of (lookupTensor pairs n) = none) := by
  refine ⟨?_, ?_, ?_⟩
  · exact resolve_hash_inputs_missing arg_key pairs names hvals hmiss
  · refine resolve_hash_inputs_maps arg_key pairs true names (fun n hn => ?_)
    rcases hvals n hn with h0 | hnd
    · exact Or.inr ⟨h0, rfl⟩
    · exact Or.inl hnd
  · intro n h0
    simp [lookupTensor, h0, ndarray_handle_of]

/-- Witness for C4 at a concrete input: a one-entry mapping resolved
against two names fails naming the absent key b when absence is
disallowed, and succeeds with a nil hole at the position of b when absence
is allowed. -/
theorem input_resolution_missing_key_witness :
    get_ndarray_inputs "args" (RVal.hash [(RKey.sym "a", RVal.ndarray 1)]) ["a", "b"] false
      = Except.error (MXErr.argError "key `b` is missing in `args`") ∧
    get_ndarray_inputs "args" (RVal.hash [(RKey.sym "a", RVal.ndarray 1)]) ["a", "b"] true
      = Except.ok ([RVal.ndarray 1, RVal.nil], [some 1, none]) := by
  have hvals : ∀ n ∈ ["a", "b"],
      hashLookup [(RKey.sym "a", RVal.ndarray 1)] (RKey.sym n) = none ∨
      ∃ hh, hashLookup [(RKey.sym "a", RVal.ndarray 1)] (RKey.sym n)
        = some (RVal.ndarray hh) := by
    intro n hn
    simp only [List.mem_cons, List.not_mem_nil, or_false] at hn
    rcases hn with rfl | rfl
    · exact Or.inr ⟨1, rfl⟩
    · exact Or.inl rfl
  have h := input_resolution_missing_key "args" ["a", "b"]
    [(RKey.sym "a", RVal.ndarray 1)] hvals ⟨"b", by simp, rfl⟩
  refine ⟨?_, h.2.1.trans rfl⟩
  obtain ⟨n, hn, h0, heq⟩ := h.1
  simp only [List.mem_cons, List.not_mem_nil, or_false] at hn
  rcases hn with rfl | rfl
  · simp [hashLookup] at h0
  · exact heq

/-- Claim C8: an input that is neither a sequence nor a mapping fails with
the TypeError of line 210; a non-tensor sequence element fails with the
TypeError of line 179; and a non-tensor mapping value for a listed name
fails with the TypeError of line 195, all before any native call. -/
theorem input_resolution_type_errors (arg_key : String) (names : List String) (am : Bool) :
    (∀ v : RVal, (∀ xs, v ≠ RVal.ary xs) → (∀ pairs, v ≠ RVal.hash pairs) →
      get_ndarray_inputs arg_key v names am
        = Except.error (MXErr.typeError "Only accept Array of NDArrays or Hash of Symbol to NDArray")) ∧
    (∀ xs : List RVal, xs.length = names.length →
      (∃ bad ∈ xs, ∀ hh, bad ≠ RVal.ndarray hh) →
      get_ndarray_inputs arg_key (RVal.ary xs) names am
        = Except.error (MXErr.typeError "Only accept Array of NDArrays or Hash of Symbol to NDArray")) ∧
    (∀ pairs : List (RKey × RVal),
      (∀ n ∈ names, hashLookup pairs (RKey.sym n) ≠ none ∨ am = true) →
      (∃ n ∈ names, ∃ v, hashLookup pairs (RKey.sym n) = some v ∧ ∀ hh, v ≠ RVal.ndarray hh) →
      get_ndarray_inputs arg_key (RVal.hash pairs) names am
        = Except.error (MXErr.typeError "Only accept array of NDArrays or hash of Symbol to NDArray")) := by
  refine ⟨?_, ?_, ?_⟩
  · intro v hna hnh
    cases v
    case ary xs => exact absurd rfl (hna xs)
    case hash pairs => exact absurd rfl (hnh pairs)
    all_goals rfl
  · intro xs hlen hbad
    simp [get_ndarray_inputs, hlen, map_except_check_nd_err xs hbad]
  · intro pairs hreach hbad
    exact resolve_hash_inputs_badval arg_key pairs am names hreach hbad

/-- Witness for C8 at concrete inputs: an Integer input, a sequence with an
Integer element, and a mapping with an Integer value each raise the
corresponding TypeError. -/
theorem input_resolution_type_errors_witness :
    get_ndarray_inputs "args" (RVal.int 3) ["a"] false
      = Except.error (MXErr.typeError "Only accept Array of NDArrays or Hash of Symbol to NDArray") ∧
    get_ndarray_inputs "args" (RVal.ary [RVal.int 3]) ["a"] false
      = Except.error (MXErr.typeError "Only accept Array of NDArrays or Hash of Symbol to NDArray") ∧
    get_ndarray_inputs "args" (RVal.hash [(RKey.sym "a", RVal.int 3)]) ["a"] false
      = Except.error (MXErr.typeError "Only accept array of NDArrays or hash of Symbol to NDArray") := by
  have h := input_resolution_type_errors "args" ["a"] false
  refine ⟨h.1 (RVal.int 3) (fun xs => by simp) (fun ps => by simp), ?_, ?_⟩
  · exact h.2.1 [RVal.int 3] rfl ⟨RVal.int 3, by simp, fun hh => by simp⟩
  · refine h.2.2 [(RKey.sym "a", RVal.int 3)] ?_ ?_
    · intro n hn
      simp only [List.mem_cons, List.not_mem_nil, or_false] at hn
      subst hn
      exact Or.inl (by simp [hashLookup])
    · exact ⟨"a", by simp, RVal.int 3, rfl, fun hh => by simp⟩

/-- Claim C9: an omitted or nil aux_states keyword is replaced by an empty
sequence and resolved against the auxiliary-state list with missing
disallowed, so any graph with a non-empty auxiliary-state list makes bind
fail with the argument-count ArgError naming aux_states. -/
theorem bind_aux_states_required (sym : MXSym) (t d : Int)
    (args args_grad grad_req aux_kw group2ctx shared_exec : RVal)
    (aa : List RVal) (ah : List (Option Nat))
    (hargs : get_ndarray_inputs "args" args sym.arguments false = Except.ok (aa, ah))
    (hgrad : args_grad = RVal.undef ∨ args_grad = RVal.nil)
    (hkw : aux_kw = RVal.undef ∨ aux_kw = RVal.nil)
    (haux : sym.aux_states ≠ []) :
    symbol_bind_resolve sym (RVal.context t d) args args_grad grad_req aux_kw group2ctx shared_exec
      = Except.error (MXErr.argError "Length of aux_states does not match the number of arguments") := by
  have hlen : ¬ ([] : List RVal).length = sym.aux_states.length := by
    intro h0
    exact haux (List.eq_nil_of_length_eq_zero h0.symm)
  have haux_res : get_ndarray_inputs "aux_states" (RVal.ary []) sym.aux_states false
      = Except.error (MXErr.argError "Length of aux_states does not match the number of arguments") := by
    simp only [get_ndarray_inputs, List.length_nil]
    rw [if_pos (by simpa using hlen)]
    rfl
  rcases hgrad with rfl | rfl <;> rcases hkw with rfl | rfl <;>
    simp [symbol_bind_resolve, hargs, haux_res]

/-- Witness for C9 at a concrete input: a graph with one auxiliary state,
bound without aux_states, fails with the aux_states length ArgError. -/
theorem bind_aux_states_required_witness :
    symbol_bind_resolve ⟨1, ["a"], ["m"]⟩ (RVal.context 1 0) (RVal.ary [RVal.ndarray 5])
      RVal.undef RVal.undef RVal.undef RVal.undef RVal.undef
      = Except.error (MXErr.argError "Length of aux_states does not match the number of arguments") :=
  bind_aux_states_required ⟨1, ["a"], ["m"]⟩ 1 0 (RVal.ary [RVal.ndarray 5])
    RVal.undef RVal.undef RVal.undef RVal.undef RVal.undef [RVal.ndarray 5] [some 5]
    rfl (Or.inl rfl) (Or.inl rfl) (by simp)

/-- In every successful resolve, the record handed to the native call
counts one argument per resolved args entry (which matches the argument
name list) and passes the gradient-requirement code array exactly as
gradient-requirement resolution produced it. -/
theorem symbol_bind_resolve_call_shape (sym : MXSym)
    (ctx args args_grad grad_req aux_states group2ctx shared_exec : RVal) (r : ResolvedBind)
    (hok : symbol_bind_resolve sym ctx args args_grad grad_req aux_states group2ctx shared_exec
      = Except.ok r) :
    r.call.num_args = sym.arguments.length ∧
    ∃ gv, resolve_grad_req sym.arguments grad_req = Except.ok (gv, r.call.reqs_array) := by
  simp only [symbol_bind_resolve] at hok
  split at hok
  case _ dev_type dev_id =>
    split at hok
    case _ => exact Except.noConfusion hok
    case _ arg_arrays args_handle heq1 =>
      split at hok
      case _ => exact Except.noConfusion hok
      case _ grad_arrays args_grad_handle heq2 =>
        split at hok
        case _ => exact Except.noConfusion hok
        case _ aux_arrays aux_args_handle heq3 =>
          split at hok
          case _ => exact Except.noConfusion hok
          case _ grad_req_v reqs_array heq4 =>
            split at hok
            case _ => exact Except.noConfusion hok
            case _ ctx_map_keys ctx_map_dev_types ctx_map_dev_ids heq5 =>
              split at hok
              case _ => exact Except.noConfusion hok
              case _ shared_exec_handle heq6 =>
                injection hok with h
                subst h
                exact ⟨get_ndarray_inputs_length "args" args sym.arguments false
                  arg_arrays args_handle heq1, grad_req_v, heq4⟩
  case _ => exact Except.noConfusion hok

/-- Claim C7: sequence-form gradient-requirement resolution produces
exactly one code per supplied position, with no length check against the
argument list, so a sequence of length L never raises a length-mismatch
error; in a successful bind the native call record still reads
num_args = N entries, so L < N leaves the code array shorter than the
count the native entry point reads from it (a latent out-of-bounds
read). -/
theorem grad_req_sequence_unchecked_length (names : List String) (items : List RVal)
    (hconv : ∀ item ∈ items,
      ∃ c, num2uint ((keyLookup grad_req_map item).getD RVal.nil) = Except.ok c) :
    (∃ reqs : List Nat,
      resolve_grad_req names (RVal.ary items) = Except.ok (RVal.ary items, reqs) ∧
      reqs.length = items.length) ∧
    (∀ (sym : MXSym) (ctx args args_grad aux_states group2ctx shared_exec : RVal)
       (r : ResolvedBind),
      sym.arguments = names →
      symbol_bind_resolve sym ctx args args_grad (RVal.ary items) aux_states group2ctx shared_exec
        = Except.ok r →
      r.call.num_args = names.length ∧ r.call.reqs_array.length = items.length ∧
      (items.length < names.length → r.call.reqs_array.length < r.call.num_args)) := by
  constructor
  · obtain ⟨l, hl, hlen⟩ := map_except_total _ items hconv
    refine ⟨l, ?_, hlen⟩
    have hbody : resolve_grad_req names (RVal.ary items)
        = match map_except (fun item =>
              num2uint ((keyLookup grad_req_map item).getD RVal.nil)) items with
          | Except.error e => Except.error e
          | Except.ok reqs => Except.ok (RVal.ary items, reqs) := rfl
    rw [hbody, hl]
  · intro sym ctx args args_grad aux_states group2ctx shared_exec r hnames hok
    obtain ⟨hnum, gv, hgr⟩ := symbol_bind_resolve_call_shape sym ctx args args_grad
      (RVal.ary items) aux_states group2ctx shared_exec r hok
    obtain ⟨_, hreqlen⟩ := resolve_grad_req_ary sym.arguments items gv r.call.reqs_array hgr
    subst hnames
    refine ⟨hnum, hreqlen, fun hlt => ?_⟩
    rw [hnum, hreqlen]
    exact hlt

/-- Witness for C7 at a concrete input: with two arguments and a one-label
grad_req sequence, resolution yields a single code without error, and the
successful resolve passes num_args = 2 with a one-entry code array, so the
native call reads past its end. -/
theorem grad_req_sequence_unchecked_length_witness :
    resolve_grad_req ["a", "b"] (RVal.ary [RVal.sym "write"])
      = Except.ok (RVal.ary [RVal.sym "write"], [1]) ∧
    ∃ r : ResolvedBind,
      symbol_bind_resolve ⟨1, ["a", "b"], []⟩ (RVal.context 1 0)
        (RVal.ary [RVal.ndarray 5, RVal.ndarray 6]) RVal.undef (RVal.ary [RVal.sym "write"])
        RVal.undef RVal.undef RVal.undef = Except.ok r ∧
      r.call.num_args = 2 ∧ r.call.reqs_array.length = 1 ∧
      r.call.reqs_array.length < r.call.num_args := by
  have hconv : ∀ item ∈ [RVal.sym "write"],
      ∃ c, num2uint ((keyLookup grad_req_map item).getD RVal.nil) = Except.ok c := by
    intro item hi
    simp only [List.mem_cons, List.not_mem_nil, or_false] at hi
    subst hi
    exact ⟨1, rfl⟩
  have h := grad_req_sequence_unchecked_length ["a", "b"] [RVal.sym "write"] hconv
  obtain ⟨r, hr⟩ : ∃ r, symbol_bind_resolve ⟨1, ["a", "b"], []⟩ (RVal.context 1 0)
      (RVal.ary [RVal.ndarray 5, RVal.ndarray 6]) RVal.undef (RVal.ary [RVal.sym "write"])
      RVal.undef RVal.undef RVal.undef = Except.ok r := ⟨_, rfl⟩
  have h2 := h.2 ⟨1, ["a", "b"], []⟩ (RVal.context 1 0)
    (RVal.ary [RVal.ndarray 5, RVal.ndarray 6]) RVal.undef RVal.undef RVal.undef RVal.undef
    r rfl hr
  constructor
  · obtain ⟨reqs, hres, _⟩ := h.1
    have h1 : resolve_grad_req ["a", "b"] (RVal.ary [RVal.sym "write"])
        = Except.ok (RVal.ary [RVal.sym "write"], [1]) := rfl
    exact h1
  · exact ⟨r, hr, h2.1, h2.2.1, h2.2.2 (by decide)⟩

end MxnetRb
